import Mathlib

/-!
Verification of the `press` file-serving backend.

The development shallowly embeds the code of `src/backend.rs` (path
assembly, etag generation, conditional-request evaluation, bounded
transfer stream) and `src/images/webp.rs` (WebP transcoding entry point)
as executable Lean definitions.  Machine integers are modelled as `Nat`
(or `Int` for signed values) with explicit reduction modulo `2 ^ 64`
where 64-bit overflow semantics matter.  External collaborators (the
host's request/response objects, `chrono` date parsing and formatting,
the `libwebp` encoder) are modelled as explicit parameters or clearly
documented model functions; everything originating in the repository
itself is translated line by line from the source.
-/

/-! ## 64-bit arithmetic helpers (model of Rust `u64` operations) -/

/-- Reduction modulo `2 ^ 64`: the value of a Rust `u64`. -/
def mask64 (n : Nat) : Nat := n % 18446744073709551616

/-- Xor of two `u64` values (masked so the result is a `u64` again). -/
def xor64 (a b : Nat) : Nat := mask64 (a ^^^ b)

/-- 64-bit left rotation, as used by the SipHash rounds. -/
def rotl64 (x r : Nat) : Nat := mask64 ((x <<< r) ||| (x >>> (64 - r)))

/-! ## SipHash-1-3, the algorithm behind `std::hash::DefaultHasher`

`generate_etag` in `src/backend.rs` feeds a `ShortMd` record through
`DefaultHasher`, which is SipHash-1-3 with both keys zero.  The byte
stream hashed is the little-endian encoding of the record's fields in
declaration order (`inode : u64`, `size : u64`, then `SystemTime`, which
on unix hashes as `tv_sec : i64` followed by `tv_nsec : u32`). -/

/-- Internal SipHash state: four 64-bit lanes. -/
structure SipState where
  v0 : Nat
  v1 : Nat
  v2 : Nat
  v3 : Nat

/-- One SipHash round. -/
def sipround (s : SipState) : SipState :=
  let v0 := mask64 (s.v0 + s.v1)
  let v1 := rotl64 s.v1 13
  let v1 := xor64 v1 v0
  let v0 := rotl64 v0 32
  let v2 := mask64 (s.v2 + s.v3)
  let v3 := rotl64 s.v3 16
  let v3 := xor64 v3 v2
  let v0 := mask64 (v0 + v3)
  let v3 := rotl64 v3 21
  let v3 := xor64 v3 v0
  let v2 := mask64 (v2 + v1)
  let v1 := rotl64 v1 17
  let v1 := xor64 v1 v2
  let v2 := rotl64 v2 32
  ⟨v0, v1, v2, v3⟩

/-- Absorb one 8-byte message block (SipHash-1-3: one round per block). -/
def sipCompress (s : SipState) (m : Nat) : SipState :=
  let s := { s with v3 := xor64 s.v3 m }
  let s := sipround s
  { s with v0 := xor64 s.v0 m }

/-- Value of a little-endian byte list (first byte is least significant). -/
def leWord (bs : List Nat) : Nat := bs.foldr (fun b acc => b + 256 * acc) 0

/-- Split a byte stream into 8-byte little-endian blocks; the final
partial block is zero-padded to seven bytes and carries the total
message length (mod 256) in its top byte, as the SipHash padding rule
prescribes. -/
def sipBlocks (len : Nat) : List Nat → List Nat
  | b0 :: b1 :: b2 :: b3 :: b4 :: b5 :: b6 :: b7 :: rest =>
      leWord [b0, b1, b2, b3, b4, b5, b6, b7] :: sipBlocks len rest
  | rest => [leWord (rest ++ List.replicate (7 - rest.length) 0) + (len % 256) * 72057594037927936]

/-- Final mixing: xor the four lanes together into the 64-bit digest. -/
def sipFinal (s : SipState) : Nat := xor64 (xor64 (xor64 s.v0 s.v1) s.v2) s.v3

/-- SipHash-1-3 of a byte list under keys `k0`, `k1`. -/
def siphash13 (k0 k1 : Nat) (msg : List Nat) : Nat :=
  let s : SipState :=
    ⟨xor64 k0 0x736f6d6570736575, xor64 k1 0x646f72616e646f6d,
     xor64 k0 0x6c7967656e657261, xor64 k1 0x7465646279746573⟩
  let s := (sipBlocks msg.length msg).foldl sipCompress s
  let s := { s with v2 := xor64 s.v2 0xff }
  let s := sipround (sipround (sipround s))
  sipFinal s

/-! ## File metadata and `generate_etag` (src/backend.rs lines 134-150) -/

/-- The slice of `std::fs::Metadata` the backend reads: `ino()` and
`size()` are `u64`; `modified()` is a unix `SystemTime`, i.e. a
`tv_sec : i64` / `tv_nsec : u32` pair. -/
structure Metadata where
  ino : Nat
  size : Nat
  modified_sec : Int
  modified_nsec : Nat

/-- `Metadata::len()`; on unix this returns the same value as `size()`. -/
def Metadata.len (md : Metadata) : Nat := md.size

/-- The instant `DateTime::<Utc>::from(metadata.modified())` denotes,
in nanoseconds since the epoch.  `chrono` date comparison is comparison
of these instants. -/
def modifiedInstant (md : Metadata) : Int :=
  md.modified_sec * 1000000000 + md.modified_nsec

/-- Little-endian encoding of `v` (mod `256 ^ w`) on `w` bytes. -/
def leBytes (w v : Nat) : List Nat := (List.range w).map (fun i => v / 256 ^ i % 256)

/-- The byte stream `derive(Hash)` feeds to the hasher for the `ShortMd`
record of `generate_etag`: `inode` as `u64`, `size` as `u64`, then the
`SystemTime`, which hashes as `tv_sec : i64` (two's complement) followed
by `tv_nsec : u32`, all little-endian (the repository targets unix on a
little-endian machine). -/
def shortMdBytes (md : Metadata) : List Nat :=
  leBytes 8 md.ino ++ leBytes 8 md.size ++
    leBytes 8 (md.modified_sec % 18446744073709551616).toNat ++
    leBytes 4 md.modified_nsec

/-- The 64-bit digest `DefaultHasher::finish()` returns for `ShortMd`:
SipHash-1-3 with both keys zero (the `DefaultHasher::new()` keys). -/
def etagHash (md : Metadata) : Nat := siphash13 0 0 (shortMdBytes md)

/-- `generate_etag` (src/backend.rs lines 134-150): the digest rendered
in decimal between double quotes. -/
def generate_etag (md : Metadata) : String :=
  "\"" ++ toString (etagHash md) ++ "\""

/-! ## Host request and response objects (external collaborators)

`get_headers` reads the backend request through `header()`, `method()`
and `url()` accessors and mutates the backend response through
`set_proto`, `set_status` and `set_header`.  The host objects are
modelled as plain records; the mutations of the response object are
modelled by explicit state passing. -/

/-- The slice of the host's backend-request object that `get_headers`
consults: the method and the two conditional headers.  `method()`
returns an `Option`, as in the host API. -/
structure Bereq where
  method : Option String
  if_none_match : Option String
  if_modified_since : Option String

/-- The host's backend-response object: protocol line, status code and
the header list, in the order the headers were set. -/
structure BeResp where
  proto : Option String
  status : Option Nat
  headers : List (String × String)

/-- `beresp.set_proto(p)`. -/
def BeResp.set_proto (r : BeResp) (p : String) : BeResp := { r with proto := some p }

/-- `beresp.set_status(s)`. -/
def BeResp.set_status (r : BeResp) (s : Nat) : BeResp := { r with status := some s }

/-- `beresp.set_header(name, value)`: appends one header. -/
def BeResp.set_header (r : BeResp) (name value : String) : BeResp :=
  { r with headers := r.headers ++ [(name, value)] }

/-- A response object on which nothing has been set yet. -/
def BeResp.empty : BeResp := ⟨none, none, []⟩

/-! ## The bounded transfer stream (src/backend.rs lines 88-100)

`FileTransfer` wraps `BufReader::new(f).take(cl)`.  `std::io::Take`
keeps a `limit` counter: a read request is clamped to
`min(buffer length, limit)`, the inner reader then delivers some
`n ≤` that clamp (depending on how many bytes the file currently
offers — modelled by the `avail` oracle, which may exceed the limit
when the file has grown), and `limit` decreases by `n`. -/

/-- The transfer stream: the remaining `Take` limit. -/
structure FileTransfer where
  limit : Nat

/-- One `FileTransfer::read` call with a buffer of `bufLen` bytes while
the underlying reader can deliver up to `avail` bytes: returns the byte
count delivered and the successor stream state. -/
def FileTransfer.read (t : FileTransfer) (bufLen avail : Nat) : Nat × FileTransfer :=
  let n := min (min bufLen t.limit) avail
  (n, ⟨t.limit - n⟩)

/-- `FileTransfer::len` (src/backend.rs lines 97-99): returns
`Take::limit()`, the current value of the limit counter. -/
def FileTransfer.len (t : FileTransfer) : Option Nat := some t.limit

/-- Run a sequence of reads, each given as a `(buffer length, available
bytes)` pair, accumulating the total number of bytes delivered. -/
def runReads (t : FileTransfer) (reqs : List (Nat × Nat)) : Nat × FileTransfer :=
  reqs.foldl (fun acc r => let s := acc.2.read r.1 r.2; (acc.1 + s.1, s.2)) (0, t)

/-! ## Conditional evaluation and response assembly
(`FileBackend::get_headers`, src/backend.rs lines 19-85) -/

/-- Rust `str::starts_with` for a string pattern: byte-prefix test. -/
def starts_with (s p : String) : Bool := p.data.isPrefixOf s.data

/-- The `if-none-match` comparison of src/backend.rs line 45:
`inm == etag || (inm.starts_with("W/") && inm[2..] == etag)`. -/
def inm_matches (inm etag : String) : Bool :=
  inm == etag || (starts_with inm "W/" && inm.drop 2 == etag)

/-- `FileBackend::get_headers` (src/backend.rs lines 19-85), with the
external collaborators passed explicitly: `parse_rfc2822` models
`chrono::DateTime::parse_from_rfc2822` (returning the parsed instant in
nanoseconds since the epoch, or `none` on a parse error),
`format_http_date` models the `chrono` rendering of the last-modified
header value, and `openResult` models the outcome of
`File::open(&path)` followed by `f.metadata()` (either an error string
or the metadata read).  The response object is threaded as state; the
returned `Except` carries the optional transfer exactly as the Rust
function's `Result<Option<FileTransfer>, _>` does. -/
def get_headers (bereq : Bereq) (parse_rfc2822 : String → Option Int)
    (format_http_date : Metadata → String)
    (openResult : Except String Metadata) (beresp0 : BeResp) :
    BeResp × Except String (Option FileTransfer) :=
  match openResult with
  | .error e => (beresp0, .error e)
  | .ok metadata =>
    let cl := metadata.len
    let modified := modifiedInstant metadata
    let etag := generate_etag metadata
    let is_304 :=
      match bereq.if_none_match with
      | some inm => inm_matches inm etag
      | none =>
        match bereq.if_modified_since with
        | some ims =>
          match parse_rfc2822 ims with
          | some t => decide (t > modified)
          | none => false
        | none => false
    let beresp := beresp0.set_proto "HTTP/1.1"
    if bereq.method ≠ some "HEAD" ∧ bereq.method ≠ some "GET" then
      (beresp.set_status 405, .ok none)
    else
      let st :=
        if is_304 then (beresp.set_status 304, none)
        else
          let beresp := beresp.set_status 200
          if bereq.method = some "GET" then (beresp, some (⟨cl⟩ : FileTransfer))
          else (beresp, none)
      let beresp := st.1.set_header "content-length" (toString cl)
      let beresp := beresp.set_header "etag" etag
      let beresp := beresp.set_header "last-modified" (format_http_date metadata)
      let beresp := beresp.set_header "content-type" "image/webp"
      (beresp, .ok st.2)

/-! ## Path assembly (`assemble_file_path`, src/backend.rs lines 106-132)

The Rust function parses the url with `Path::components()`, which on
unix decomposes the string at `/` separators: a leading separator
yields `RootDir`, empty pieces (doubled or trailing separators) are
normalized away, `.` is `CurDir`, `..` is `ParentDir`, and everything
else is a `Normal` segment.  The match arms skip `RootDir` and
`CurDir`, pop the collected list on `ParentDir` (`Vec::pop` on an empty
vector is a no-op) and push `Normal` segments.  The splitter is written
here directly on the character list so that it evaluates by kernel
reduction. -/

/-- Split a character list at `/` separators (auxiliary, carrying the
current piece in reverse). -/
def splitSlashAux : List Char → List Char → List (List Char)
  | [], cur => [cur.reverse]
  | c :: rest, cur =>
    if c = '/' then cur.reverse :: splitSlashAux rest []
    else splitSlashAux rest (c :: cur)

/-- Split a string at `/` separators into its (possibly empty) pieces. -/
def splitSlash (s : String) : List String :=
  (splitSlashAux s.data []).map (fun l => ⟨l⟩)

/-- One step of the component collection loop of `assemble_file_path`:
empty pieces (`RootDir` and normalized-away separators) and `.`
(`CurDir`) are skipped, `..` (`ParentDir`) pops the most recently
collected segment, anything else (`Normal`) is collected. -/
def segStep (acc : List String) (c : String) : List String :=
  if c = "" ∨ c = "." then acc
  else if c = ".." then acc.dropLast
  else acc ++ [c]

/-- One step of the final concatenation loop of `assemble_file_path`:
`complete_path.push('/'); complete_path.push_str(c)`. -/
def joinStep (acc c : String) : String := acc ++ "/" ++ c

/-- `assemble_file_path` (src/backend.rs lines 106-132), as the string
content of the returned `PathBuf`.  The Rust function asserts
`root_path != ""`; the theorems carry that precondition. -/
def assemble_file_path (root_path url : String) : String :=
  ((splitSlash url).foldl segStep []).foldl joinStep root_path

/-- The component view under which Rust compares `PathBuf`s (used to
restate the repository's unit tests): whether the path is absolute, and
its component pieces with empty and `.` pieces normalized away.  This
helper is only applied to concrete paths without a leading `.`
component, where it coincides with `Path::components()`. -/
def rustComponents (s : String) : Bool × List String :=
  (s.data.head? = some '/', (splitSlash s).filter (fun c => ¬(c = "" ∨ c = ".")))

/-! ## WebP transcoding (`to_webp`, src/images/webp.rs lines 24-43)

The pixel containers of the `image` crate and the encoder of the `webp`
crate are external collaborators.  `webp::Encoder::from_image` accepts
only the `Rgb8` and `Rgba8` layouts and reports every other layout as
`Err("Unimplemented")`; `libwebp`'s actual bit stream generation is
modelled as an unspecified deterministic function.  The repository's
own `to_webp` calls `.expect("Unsupported format")` on the
`from_image` result and `.unwrap()` on the encoding result: both are
Rust panics, i.e. unrecoverable aborts of the surrounding process, not
values returned to the caller, so the embedding's result type carries a
dedicated `panicked` constructor distinct from any ordinary return. -/

/-- A decoded pixel buffer of the `image` crate. -/
structure RawImage where
  width : Nat
  height : Nat
  pixels : List Nat

/-- The pixel layouts of `image::DynamicImage` that matter to
`Encoder::from_image`: the two accepted layouts, the two explicitly
rejected 8-bit luma layouts, and a representative of the remaining
(also rejected) layouts. -/
inductive DynamicImage
  | ImageLuma8 (img : RawImage)
  | ImageLumaA8 (img : RawImage)
  | ImageRgb8 (img : RawImage)
  | ImageRgba8 (img : RawImage)
  | OtherLayout (img : RawImage)

/-- Whether `webp::Encoder::from_image` accepts the layout. -/
def DynamicImage.webp_supported : DynamicImage → Bool
  | .ImageRgb8 _ => true
  | .ImageRgba8 _ => true
  | _ => false

/-- The channel interpretation a constructed encoder uses. -/
inductive PixelLayout
  | rgb
  | rgba

/-- A constructed `webp::Encoder`. -/
structure WebpEncoder where
  layout : PixelLayout
  width : Nat
  height : Nat
  pixels : List Nat

/-- `webp::Encoder::from_image` (external crate): `Rgb8` and `Rgba8`
yield an encoder, every other layout yields `Err("Unimplemented")`. -/
def Encoder.from_image : DynamicImage → Except String WebpEncoder
  | .ImageLuma8 _ => .error "Unimplemented"
  | .ImageLumaA8 _ => .error "Unimplemented"
  | .ImageRgb8 img => .ok ⟨.rgb, img.width, img.height, img.pixels⟩
  | .ImageRgba8 img => .ok ⟨.rgba, img.width, img.height, img.pixels⟩
  | .OtherLayout _ => .error "Unimplemented"

/-- The `libwebp` advanced-encoder configuration, restricted to the
fields `to_webp` assigns (the remaining fields keep the external
defaults and are not observable through this repository).  The `f32`
quality is carried opaquely; the repository performs no arithmetic on
it. -/
structure WebPConfig where
  quality : Int
  lossless : Int
  alpha_quality : Int
  alpha_compression : Int
  alpha_filtering : Int
  autofilter : Int
  filter_sharpness : Int
  filter_strength : Int
  filter_type : Int
  use_sharp_yuv : Int
  method : Int

/-- Models the external `libwebp` bit stream generation: an unspecified
deterministic function of the encoder contents and the configuration. -/
def webpBits (e : WebpEncoder) (c : WebPConfig) : List Nat :=
  e.width :: e.height :: c.quality.natAbs :: e.pixels

/-- `Encoder::encode_advanced` (external crate): runs `libwebp` with
the given configuration and returns the compressed buffer. -/
def WebpEncoder.encode_advanced (e : WebpEncoder) (c : WebPConfig) :
    Except String (List Nat) :=
  .ok (webpBits e c)

/-- The `Webp` wrapper of src/images/webp.rs: owns the compressed
buffer. -/
structure Webp where
  data : List Nat

/-- Outcome of a call to `to_webp`: either a returned `Webp` value, or
a Rust panic (an unrecoverable abort, nothing is returned to the
caller). -/
inductive ToWebpResult
  | ok (w : Webp)
  | panicked (msg : String)

/-- `to_webp` (src/images/webp.rs lines 24-43): builds the fixed
configuration, then `Encoder::from_image(image).expect("Unsupported
format")` — a panic when the layout is rejected — and
`.encode_advanced(&config).unwrap()` — a panic when encoding fails. -/
def to_webp (image : DynamicImage) (quality : Int) (autofilter : Bool) : ToWebpResult :=
  let config : WebPConfig :=
    { quality := quality
      lossless := 0
      alpha_quality := 50
      alpha_compression := 1
      alpha_filtering := 0
      autofilter := if autofilter then 1 else 0
      filter_sharpness := 4
      filter_strength := 50
      filter_type := 0
      use_sharp_yuv := 0
      method := 3 }
  match Encoder.from_image image with
  | .error _ => .panicked "Unsupported format"
  | .ok enc =>
    match enc.encode_advanced config with
    | .error _ => .panicked "called unwrap on an encoding error"
    | .ok mem => .ok ⟨mem⟩

/-! ## Validation lemmas

Bound and check-vector lemmas for the hash embedding (the vectors were
produced by an independent SipHash implementation validated against the
published SipHash test vectors), and the repository's own unit tests of
`assemble_file_path` re-proved against the embedding. -/

theorem mask64_lt (n : Nat) : mask64 n < 18446744073709551616 :=
  Nat.mod_lt _ (by norm_num)

theorem siphash13_lt (k0 k1 : Nat) (msg : List Nat) :
    siphash13 k0 k1 msg < 18446744073709551616 := by
  unfold siphash13
  exact mask64_lt _

/-- Check vector: SipHash-1-3 with zero keys on the empty message. -/
theorem siphash13_vector_empty : siphash13 0 0 [] = 15130871412783076140 := by decide

/-- Check vector: SipHash-1-3 with zero keys on the single byte `0x01`. -/
theorem siphash13_vector_one : siphash13 0 0 [1] = 4952851536318644461 := by decide

/-- Check vector: SipHash-1-3 with zero keys on the bytes `0x00..0x07`. -/
theorem siphash13_vector_eight :
    siphash13 0 0 [0, 1, 2, 3, 4, 5, 6, 7] = 16921169381604339434 := by decide

/-- Check vector: SipHash-1-3 with zero keys on the bytes `0x00..0x1b`
(28 bytes, the length of the `ShortMd` byte stream). -/
theorem siphash13_vector_twentyeight :
    siphash13 0 0 (List.range 28) = 10148157970078042823 := by decide

theorem etagHash_lt (md : Metadata) : etagHash md < 18446744073709551616 :=
  siphash13_lt _ _ _

/-- Check vector for the full metadata hash (all-zero metadata). -/
theorem etagHash_vector_zero : etagHash ⟨0, 0, 0, 0⟩ = 2208277234043554503 := by decide

/-- Check vector for the full metadata hash (small field values). -/
theorem etagHash_vector_small : etagHash ⟨1, 2, 3, 4⟩ = 217251241832517778 := by decide

/-- Check vector for the full metadata hash (realistic field values). -/
theorem etagHash_vector_realistic :
    etagHash ⟨42, 1000, 1700000000, 123456789⟩ = 1474643329121727541 := by decide

/-- Check vector for the full metadata hash (extreme field values,
including a negative `tv_sec` exercising two's-complement encoding). -/
theorem etagHash_vector_extreme :
    etagHash ⟨18446744073709551615, 18446744073709551615, -9223372036854775808, 999999999⟩
      = 15337829054329195982 := by decide

/-- Repository unit test `simple` (src/backend.rs line 161). -/
theorem test_simple :
    assemble_file_path "/foo/bar" "/baz/qux" = "/foo/bar/baz/qux" := by decide

/-- Repository unit test `simple_slash` (src/backend.rs line 164); the
Rust assertion compares `PathBuf`s, which ignores the doubled
separator, so it is restated under the component view. -/
theorem test_simple_slash :
    rustComponents (assemble_file_path "/foo/bar/" "/baz/qux")
      = rustComponents "/foo/bar/baz/qux" := by decide

/-- Repository unit test `parent` (src/backend.rs line 167). -/
theorem test_parent :
    assemble_file_path "/foo/bar" "/bar/../qux" = "/foo/bar/qux" := by decide

/-- Repository unit test `too_many_parents` (src/backend.rs line 170). -/
theorem test_too_many_parents :
    assemble_file_path "/foo/bar" "/bar/../../qux" = "/foo/bar/qux" := by decide

/-- Repository unit test `current` (src/backend.rs line 173). -/
theorem test_current :
    assemble_file_path "/foo/bar" "/bar/././qux" = "/foo/bar/bar/qux" := by decide

/-! ## Helper lemmas -/

@[simp] theorem BeResp.status_set_header (r : BeResp) (n v : String) :
    (r.set_header n v).status = r.status := rfl

@[simp] theorem BeResp.status_set_proto (r : BeResp) (p : String) :
    (r.set_proto p).status = r.status := rfl

@[simp] theorem BeResp.status_set_status (r : BeResp) (s : Nat) :
    (r.set_status s).status = some s := rfl

@[simp] theorem BeResp.headers_set_proto (r : BeResp) (p : String) :
    (r.set_proto p).headers = r.headers := rfl

@[simp] theorem BeResp.headers_set_status (r : BeResp) (s : Nat) :
    (r.set_status s).headers = r.headers := rfl

theorem data_empty_string : ("" : String).data = [] := rfl

/-- Folding the concatenation step over any starting string factors as a
string append. -/
theorem joinStep_foldl (segs : List String) (pre : String) :
    segs.foldl joinStep pre = pre ++ segs.foldl joinStep "" := by
  induction segs generalizing pre with
  | nil =>
    apply String.ext
    simp [String.data_append, data_empty_string]
  | cons c cs ih =>
    simp only [List.foldl]
    rw [ih (joinStep pre c), ih (joinStep "" c)]
    apply String.ext
    simp [joinStep, String.data_append, data_empty_string]

/-- Every segment collected by the component loop is a literal segment:
never empty, never `.`, never `..`. -/
theorem segStep_foldl_good (pieces : List String) (acc : List String)
    (h : ∀ s ∈ acc, s ≠ "" ∧ s ≠ "." ∧ s ≠ "..") :
    ∀ s ∈ pieces.foldl segStep acc, s ≠ "" ∧ s ≠ "." ∧ s ≠ ".." := by
  induction pieces generalizing acc with
  | nil => exact h
  | cons c cs ih =>
    refine ih (segStep acc c) ?_
    intro s hs
    unfold segStep at hs
    by_cases h1 : c = "" ∨ c = "."
    · rw [if_pos h1] at hs
      exact h s hs
    · rw [if_neg h1] at hs
      by_cases h2 : c = ".."
      · rw [if_pos h2] at hs
        exact h s (List.dropLast_subset _ hs)
      · rw [if_neg h2] at hs
        rcases List.mem_append.1 hs with hm | hm
        · exact h s hm
        · rw [List.mem_singleton] at hm
          subst hm
          exact ⟨fun he => h1 (Or.inl he), fun he => h1 (Or.inr he), h2⟩

/-- Invariant of the transfer loop: bytes delivered so far plus the
remaining limit is constant. -/
theorem runReads_aux (reqs : List (Nat × Nat)) (p : Nat × FileTransfer) :
    (reqs.foldl (fun acc r => let s := acc.2.read r.1 r.2; (acc.1 + s.1, s.2)) p).1 +
      (reqs.foldl (fun acc r => let s := acc.2.read r.1 r.2; (acc.1 + s.1, s.2)) p).2.limit
      = p.1 + p.2.limit := by
  induction reqs generalizing p with
  | nil => rfl
  | cons r rs ih =>
    simp only [List.foldl]
    rw [ih]
    simp only [FileTransfer.read]
    omega

/-- The `if-none-match` comparison accepts exactly the etag itself and
the etag prefixed by `W/`. -/
theorem inm_matches_iff (inm etag : String) :
    inm_matches inm etag = true ↔ (inm = etag ∨ inm = "W/" ++ etag) := by
  unfold inm_matches starts_with
  constructor
  · intro h
    rw [Bool.or_eq_true] at h
    rcases h with h1 | h1
    · exact Or.inl (by simpa using h1)
    · rw [Bool.and_eq_true] at h1
      obtain ⟨hpre, hdrop⟩ := h1
      right
      have hpre' : ("W/" : String).data <+: inm.data := List.isPrefixOf_iff_prefix.1 hpre
      obtain ⟨tail, htail⟩ := hpre'
      have hdrop' : inm.drop 2 = etag := by simpa using hdrop
      apply String.ext
      rw [String.data_append, ← htail]
      have : etag.data = inm.data.drop 2 := by
        rw [← hdrop', String.data_drop]
      rw [this, ← htail]
      rfl
  · rintro (rfl | rfl)
    · simp
    · rw [Bool.or_eq_true]
      right
      rw [Bool.and_eq_true]
      refine ⟨List.isPrefixOf_iff_prefix.2 ⟨etag.data, by rw [String.data_append]⟩, ?_⟩
      have : ("W/" ++ etag).drop 2 = etag := by
        apply String.ext
        rw [String.data_drop, String.data_append]
        rfl
      simp [this]

/-! ## Claim theorems -/

/-- C1: for every non-empty root string and every request url string,
`assemble_file_path` returns the root followed by zero or more literal
path segments, each preceded by a single `/` separator; in particular
the output never has fewer characters than the root and never contains
a `..` (or `.` or empty) segment, and excess `..` markers are clamped
at the root (the result below holds for every url, including urls with
more `..` markers than segments). -/
theorem assemble_file_path_containment (root url : String) (_hroot : root ≠ "") :
    ∃ segs : List String,
      (∀ s ∈ segs, s ≠ "" ∧ s ≠ "." ∧ s ≠ "..") ∧
      assemble_file_path root url = root ++ segs.foldl joinStep "" ∧
      root.length ≤ (assemble_file_path root url).length := by
  have hx : assemble_file_path root url
      = root ++ ((splitSlash url).foldl segStep []).foldl joinStep "" := by
    unfold assemble_file_path
    exact joinStep_foldl _ _
  refine ⟨(splitSlash url).foldl segStep [], segStep_foldl_good _ [] (by simp), hx, ?_⟩
  rw [hx, String.length_append]
  exact Nat.le_add_right _ _

/-- Witness for C1 at the repository's own clamping test input. -/
theorem assemble_file_path_containment_witness :
    (("/foo/bar" : String) ≠ "") ∧
    ∃ segs : List String,
      (∀ s ∈ segs, s ≠ "" ∧ s ≠ "." ∧ s ≠ "..") ∧
      assemble_file_path "/foo/bar" "/bar/../../qux" = "/foo/bar" ++ segs.foldl joinStep "" ∧
      ("/foo/bar" : String).length ≤ (assemble_file_path "/foo/bar" "/bar/../../qux").length :=
  ⟨by decide, assemble_file_path_containment "/foo/bar" "/bar/../../qux" (by decide)⟩

/-- C4: any method other than GET and HEAD yields status 405, leaves
the header list exactly as it was (no content-length, etag,
last-modified or content-type header is added) and hands back no body
stream, whatever conditional headers the request carries. -/
theorem method_gating_405 (bereq : Bereq) (parse : String → Option Int)
    (fmt : Metadata → String) (md : Metadata) (r0 : BeResp)
    (h1 : bereq.method ≠ some "GET") (h2 : bereq.method ≠ some "HEAD") :
    get_headers bereq parse fmt (.ok md) r0
      = ((r0.set_proto "HTTP/1.1").set_status 405, .ok none) := by
  simp only [get_headers]
  split
  · rfl
  · next hcond => exact absurd ⟨h2, h1⟩ hcond

/-- Witness for C4: a POST request with both conditional headers set. -/
theorem method_gating_405_witness :
    (some "POST" ≠ some "GET") ∧ (some "POST" ≠ some "HEAD") ∧
    get_headers ⟨some "POST", some "\"1\"", some "Thu, 01 Jan 1970 00:00:00 GMT"⟩
        (fun _ => some 0) (fun _ => "date") (.ok ⟨1, 2, 3, 4⟩) BeResp.empty
      = ((BeResp.empty.set_proto "HTTP/1.1").set_status 405, .ok none) :=
  ⟨by decide, by decide,
    method_gating_405 _ _ _ _ _ (by decide) (by decide)⟩

/-- C5: a transfer stream constructed with limit N never delivers more
than N bytes in total, across any sequence of reads, whatever the
underlying file offers at each read (including more than N bytes after
the file has grown). -/
theorem transfer_total_le_limit (N : Nat) (reqs : List (Nat × Nat)) :
    (runReads ⟨N⟩ reqs).1 ≤ N := by
  have h := runReads_aux reqs (0, ⟨N⟩)
  have hz : ((0, (⟨N⟩ : FileTransfer)).1) = 0 := rfl
  have hl : ((0, (⟨N⟩ : FileTransfer)).2).limit = N := rfl
  rw [hz, hl] at h
  unfold runReads
  omega

/-- C7 (amended): the `len` accessor returns the bytes still
deliverable — the construction limit N minus the bytes already
delivered — not the constant N. -/
theorem transfer_len_eq_remaining (N : Nat) (reqs : List (Nat × Nat)) :
    (runReads ⟨N⟩ reqs).2.len = some (N - (runReads ⟨N⟩ reqs).1) := by
  have h := runReads_aux reqs (0, ⟨N⟩)
  simp only [runReads, FileTransfer.len, Option.some.injEq] at h ⊢
  omega

/-- C7 counterexample: a stream constructed with limit 2 delivers one
byte, after which `len` returns 1, not the construction limit 2. -/
theorem transfer_len_after_read_cex :
    ((FileTransfer.mk 2).read 1 1).1 = 1 ∧
    ((FileTransfer.mk 2).read 1 1).2.len = some 1 ∧
    ((FileTransfer.mk 2).read 1 1).2.len ≠ some 2 := by decide

/-- C9: when opening the file or reading its metadata fails,
`get_headers` propagates the error with the response object untouched:
no protocol, no status, no header has been set, and no body stream has
been created. -/
theorem open_error_atomicity (bereq : Bereq) (parse : String → Option Int)
    (fmt : Metadata → String) (e : String) (r0 : BeResp) :
    get_headers bereq parse fmt (.error e) r0 = (r0, .error e) := rfl

/-- C2 counterexample: a GET request with no `if-none-match` and an
`if-modified-since` that parses to exactly the resource's last-modified
instant receives a full 200 response, not a 304 — the code compares
with strictly-greater, so "at or after" is false at equality. -/
theorem ims_equal_not_304_cex :
    (fun _ => some 3000000500 : String → Option Int) "Thu, 01 Jan 1970 00:00:03 GMT"
        = some (modifiedInstant ⟨1, 5, 3, 500⟩) ∧
    (get_headers ⟨some "GET", none, some "Thu, 01 Jan 1970 00:00:03 GMT"⟩
        (fun _ => some 3000000500) (fun _ => "date") (.ok ⟨1, 5, 3, 500⟩) BeResp.empty).1.status
      = some 200 ∧
    (get_headers ⟨some "GET", none, some "Thu, 01 Jan 1970 00:00:03 GMT"⟩
        (fun _ => some 3000000500) (fun _ => "date") (.ok ⟨1, 5, 3, 500⟩) BeResp.empty).1.status
      ≠ some 304 := by decide

/-- C2 (amended): with no `if-none-match` and an `if-modified-since`
that parses to an instant strictly after the resource's last-modified
instant, a GET or HEAD request receives 304 and no body stream; a date
exactly equal to the last-modified instant does not qualify. -/
theorem ims_strictly_after_304 (method : Option String) (ims : String)
    (parse : String → Option Int) (fmt : Metadata → String)
    (md : Metadata) (r0 : BeResp) (t : Int)
    (hm : method = some "GET" ∨ method = some "HEAD")
    (hp : parse ims = some t)
    (ht : modifiedInstant md < t) :
    (get_headers ⟨method, none, some ims⟩ parse fmt (.ok md) r0).1.status = some 304 ∧
    (get_headers ⟨method, none, some ims⟩ parse fmt (.ok md) r0).2 = .ok none := by
  rcases hm with rfl | rfl <;>
  · simp only [get_headers, hp]
    rw [if_neg (by simp)]
    rw [if_pos (by simpa using ht)]
    simp

/-- Witness for the amended C2: a client date one nanosecond after the
last-modified instant yields 304 with no body. -/
theorem ims_strictly_after_304_witness :
    ((some "GET" : Option String) = some "GET" ∨ (some "GET" : Option String) = some "HEAD") ∧
    (fun _ => some 3000000501 : String → Option Int) "Thu, 01 Jan 1970 00:00:03 GMT"
        = some 3000000501 ∧
    modifiedInstant ⟨1, 5, 3, 500⟩ < 3000000501 ∧
    (get_headers ⟨some "GET", none, some "Thu, 01 Jan 1970 00:00:03 GMT"⟩
        (fun _ => some 3000000501) (fun _ => "date") (.ok ⟨1, 5, 3, 500⟩) BeResp.empty).1.status
      = some 304 ∧
    (get_headers ⟨some "GET", none, some "Thu, 01 Jan 1970 00:00:03 GMT"⟩
        (fun _ => some 3000000501) (fun _ => "date") (.ok ⟨1, 5, 3, 500⟩) BeResp.empty).2
      = .ok none := by
  refine ⟨Or.inl rfl, rfl, by decide, ?_⟩
  exact ims_strictly_after_304 (some "GET") "Thu, 01 Jan 1970 00:00:03 GMT"
    (fun _ => some 3000000501) (fun _ => "date") ⟨1, 5, 3, 500⟩ BeResp.empty 3000000501
    (Or.inl rfl) rfl (by decide)

/-- C3: when `if-none-match` is present on a GET or HEAD request, the
status is 304 exactly when the header matches the etag (exact or
weak-prefixed), the whole response is independent of the
`if-modified-since` header and of how it would parse, and a
non-matching `if-none-match` yields a 200. -/
theorem inm_priority (method : Option String) (inm : String)
    (ims1 ims2 : Option String) (parse1 parse2 : String → Option Int)
    (fmt : Metadata → String) (md : Metadata) (r0 : BeResp)
    (hm : method = some "GET" ∨ method = some "HEAD") :
    ((get_headers ⟨method, some inm, ims1⟩ parse1 fmt (.ok md) r0).1.status = some 304
        ↔ inm_matches inm (generate_etag md) = true) ∧
    get_headers ⟨method, some inm, ims1⟩ parse1 fmt (.ok md) r0
      = get_headers ⟨method, some inm, ims2⟩ parse2 fmt (.ok md) r0 ∧
    (inm_matches inm (generate_etag md) = false →
      (get_headers ⟨method, some inm, ims1⟩ parse1 fmt (.ok md) r0).1.status = some 200) := by
  rcases hm with rfl | rfl <;>
    cases hb : inm_matches inm (generate_etag md) <;>
      simp [get_headers, hb]

/-- Witness for C3 at a concrete HEAD request whose `if-none-match`
does not match, with two disagreeing `if-modified-since` readings. -/
theorem inm_priority_witness :
    ((some "HEAD" : Option String) = some "GET" ∨ (some "HEAD" : Option String) = some "HEAD") ∧
    (((get_headers ⟨some "HEAD", some "abc", some "x"⟩ (fun _ => some 7) (fun _ => "date")
          (.ok ⟨1, 2, 3, 4⟩) BeResp.empty).1.status = some 304
        ↔ inm_matches "abc" (generate_etag ⟨1, 2, 3, 4⟩) = true) ∧
      get_headers ⟨some "HEAD", some "abc", some "x"⟩ (fun _ => some 7) (fun _ => "date")
          (.ok ⟨1, 2, 3, 4⟩) BeResp.empty
        = get_headers ⟨some "HEAD", some "abc", none⟩ (fun _ => none) (fun _ => "date")
            (.ok ⟨1, 2, 3, 4⟩) BeResp.empty ∧
      (inm_matches "abc" (generate_etag ⟨1, 2, 3, 4⟩) = false →
        (get_headers ⟨some "HEAD", some "abc", some "x"⟩ (fun _ => some 7) (fun _ => "date")
            (.ok ⟨1, 2, 3, 4⟩) BeResp.empty).1.status = some 200)) :=
  ⟨Or.inr rfl,
    inm_priority (some "HEAD") "abc" (some "x") none (fun _ => some 7) (fun _ => none)
      (fun _ => "date") ⟨1, 2, 3, 4⟩ BeResp.empty (Or.inr rfl)⟩

/-- C10: the `if-none-match` comparison recognizes only the exact etag
string and the etag prefixed by `W/`; every other value — `*`, lists,
unquoted etags — does not match, and a GET or HEAD request carrying it
receives a full 200 (with a body stream bounded to the file size on
GET). -/
theorem inm_single_etag_only (method : Option String) (inm : String) (ims : Option String)
    (parse : String → Option Int) (fmt : Metadata → String) (md : Metadata) (r0 : BeResp)
    (hm : method = some "GET" ∨ method = some "HEAD")
    (hne1 : inm ≠ generate_etag md) (hne2 : inm ≠ "W/" ++ generate_etag md) :
    inm_matches inm (generate_etag md) = false ∧
    (get_headers ⟨method, some inm, ims⟩ parse fmt (.ok md) r0).1.status = some 200 ∧
    (method = some "GET" →
      (get_headers ⟨method, some inm, ims⟩ parse fmt (.ok md) r0).2 = .ok (some ⟨md.len⟩)) := by
  have hb : inm_matches inm (generate_etag md) = false := by
    rw [← Bool.not_eq_true, inm_matches_iff]
    rintro (rfl | rfl)
    · exact hne1 rfl
    · exact hne2 rfl
  refine ⟨hb, ?_⟩
  rcases hm with rfl | rfl <;> simp [get_headers, hb]

/-- Witness for C10 with the header value `*`. -/
theorem inm_single_etag_only_witness :
    ((some "GET" : Option String) = some "GET" ∨ (some "GET" : Option String) = some "HEAD") ∧
    ("*" ≠ generate_etag ⟨1, 2, 3, 4⟩) ∧
    ("*" ≠ "W/" ++ generate_etag ⟨1, 2, 3, 4⟩) ∧
    (inm_matches "*" (generate_etag ⟨1, 2, 3, 4⟩) = false ∧
      (get_headers ⟨some "GET", some "*", none⟩ (fun _ => none) (fun _ => "date")
          (.ok ⟨1, 2, 3, 4⟩) BeResp.empty).1.status = some 200 ∧
      ((some "GET" : Option String) = some "GET" →
        (get_headers ⟨some "GET", some "*", none⟩ (fun _ => none) (fun _ => "date")
            (.ok ⟨1, 2, 3, 4⟩) BeResp.empty).2 = .ok (some ⟨Metadata.len ⟨1, 2, 3, 4⟩⟩))) :=
  ⟨Or.inl rfl, by decide, by decide,
    inm_single_etag_only (some "GET") "*" none (fun _ => none) (fun _ => "date")
      ⟨1, 2, 3, 4⟩ BeResp.empty (Or.inl rfl) (by decide) (by decide)⟩

/-- C6 counterexample: on an image whose pixel layout the encoder
rejects, `to_webp` panics (an unrecoverable abort carrying the
`Unsupported format` message) — its return type offers no error value,
so no `UnsupportedFormatError` is ever returned to the caller. -/
theorem to_webp_unsupported_panics_cex :
    to_webp (.ImageLuma8 ⟨1, 1, [0]⟩) 75 false = .panicked "Unsupported format" := rfl

/-- C6 (amended): for every image whose pixel layout cannot be encoded,
`to_webp` aborts with the `Unsupported format` panic — never a silent
empty buffer and never an error value returned to the caller. -/
theorem to_webp_unsupported_panics (image : DynamicImage) (quality : Int) (autofilter : Bool)
    (h : image.webp_supported = false) :
    to_webp image quality autofilter = .panicked "Unsupported format" := by
  cases image <;> simp_all [to_webp, Encoder.from_image, DynamicImage.webp_supported]

/-- Witness for the amended C6 at a concrete 8-bit luma image. -/
theorem to_webp_unsupported_panics_witness :
    DynamicImage.webp_supported (.ImageLuma8 ⟨1, 1, [0]⟩) = false ∧
    to_webp (.ImageLuma8 ⟨1, 1, [0]⟩) 75 false = .panicked "Unsupported format" :=
  ⟨rfl, to_webp_unsupported_panics (.ImageLuma8 ⟨1, 1, [0]⟩) 75 false rfl⟩

/-- C8 (amended, determinism half): metadata agreeing on identifier,
size and modification time produce identical etag strings. -/
theorem generate_etag_deterministic (m1 m2 : Metadata)
    (h1 : m1.ino = m2.ino) (h2 : m1.size = m2.size)
    (h3 : m1.modified_sec = m2.modified_sec) (h4 : m1.modified_nsec = m2.modified_nsec) :
    generate_etag m1 = generate_etag m2 := by
  cases m1
  cases m2
  cases h1
  cases h2
  cases h3
  cases h4
  rfl

/-- Witness for the determinism of `generate_etag` on two syntactically
different but field-equal metadata values. -/
theorem generate_etag_deterministic_witness :
    ((⟨1, 2, 3, 4⟩ : Metadata).ino = (⟨1, 2, 3, 2 + 2⟩ : Metadata).ino) ∧
    ((⟨1, 2, 3, 4⟩ : Metadata).size = (⟨1, 2, 3, 2 + 2⟩ : Metadata).size) ∧
    ((⟨1, 2, 3, 4⟩ : Metadata).modified_sec = (⟨1, 2, 3, 2 + 2⟩ : Metadata).modified_sec) ∧
    ((⟨1, 2, 3, 4⟩ : Metadata).modified_nsec = (⟨1, 2, 3, 2 + 2⟩ : Metadata).modified_nsec) ∧
    generate_etag ⟨1, 2, 3, 4⟩ = generate_etag ⟨1, 2, 3, 2 + 2⟩ :=
  ⟨rfl, rfl, rfl, by decide,
    generate_etag_deterministic ⟨1, 2, 3, 4⟩ ⟨1, 2, 3, 2 + 2⟩ rfl rfl rfl (by decide)⟩

/-- C8 counterexample (sensitivity half): the etag is a 64-bit hash, so
by pigeonhole there exist two metadata values — with in-range `u64`
identifiers and sizes — that differ as tuples yet produce the same etag
string; changing identifier or size therefore does not always change
the etag. -/
theorem generate_etag_collision_cex :
    ∃ m1 m2 : Metadata,
      m1.ino < 18446744073709551616 ∧ m2.ino < 18446744073709551616 ∧
      m1.size < 18446744073709551616 ∧ m2.size < 18446744073709551616 ∧
      (m1.ino, m1.size, m1.modified_sec, m1.modified_nsec)
        ≠ (m2.ino, m2.size, m2.modified_sec, m2.modified_nsec) ∧
      generate_etag m1 = generate_etag m2 := by
  have hcard : Fintype.card (Fin 18446744073709551616)
      < Fintype.card (Fin 18446744073709551616 × Fin 18446744073709551616) := by
    rw [Fintype.card_prod, Fintype.card_fin]
    norm_num
  obtain ⟨a, b, hne, heq⟩ := Fintype.exists_ne_map_eq_of_card_lt
    (fun p : Fin 18446744073709551616 × Fin 18446744073709551616 =>
      (⟨etagHash ⟨p.1.val, p.2.val, 0, 0⟩, etagHash_lt _⟩ : Fin 18446744073709551616))
    hcard
  refine ⟨⟨a.1.val, a.2.val, 0, 0⟩, ⟨b.1.val, b.2.val, 0, 0⟩,
    a.1.isLt, b.1.isLt, a.2.isLt, b.2.isLt, ?_, ?_⟩
  · intro hc
    apply hne
    have h1 : a.1.val = b.1.val := congrArg (fun q => q.1) hc
    have h2 : a.2.val = b.2.val := congrArg (fun q => q.2.1) hc
    exact Prod.ext (Fin.ext h1) (Fin.ext h2)
  · have hh : etagHash ⟨a.1.val, a.2.val, 0, 0⟩ = etagHash ⟨b.1.val, b.2.val, 0, 0⟩ :=
      congrArg Fin.val heq
    simp [generate_etag, hh]
